import Mathlib

/-!
Verification of the paylink payment-link application core:
the intent-ledger HTTP handlers (split participant payment, single-payment
completion callback, split creation), the client-side route selector, the
payment-execution confirmation step, the error/reset handling of the swap
hook, and the slippage-adjustment helper.

All definitions are shallow embeddings of the TypeScript source
(server: src/unnamed/part_005; hooks: src/unnamed/part_002;
route selector and quote handler: src/src/pages/CreatePage.tsx;
slippage helper: src/unnamed/part_001 and part_002).
-/

namespace Paylink

/-! ### String helpers

Executable models of the JavaScript string operations used by the source
(`toLowerCase`, `toUpperCase`, `trim`, `endsWith`, `includes`), implemented
over character lists so that the kernel can evaluate them on literals. -/

/-- Model of JS `String.prototype.toLowerCase` (ASCII case folding). -/
def lowerStr (s : String) : String := String.mk (s.data.map Char.toLower)

/-- Model of JS `String.prototype.toUpperCase` (ASCII case folding). -/
def upperStr (s : String) : String := String.mk (s.data.map Char.toUpper)

/-- Model of JS `String.prototype.trim`. -/
def trimStr (s : String) : String :=
  String.mk (((s.data.dropWhile Char.isWhitespace).reverse.dropWhile Char.isWhitespace).reverse)

/-- List-level starts-with check. -/
def startsWithL : List Char → List Char → Bool
  | [], _ => true
  | _ :: _, [] => false
  | a :: as, b :: bs => a == b && startsWithL as bs

/-- List-level contains check (contiguous sublist). -/
def containsL (pat : List Char) : List Char → Bool
  | [] => startsWithL pat []
  | l@(_ :: t) => startsWithL pat l || containsL pat t

/-- Model of JS `String.prototype.endsWith`. -/
def strEndsWith (s pat : String) : Bool := startsWithL pat.data.reverse s.data.reverse

/-- Model of JS `String.prototype.includes`. -/
def strIncludes (s pat : String) : Bool := containsL pat.data s.data

/-! ### Server data model (src/unnamed/part_005, TYPES section) -/

/-- One payer's obligation inside a split Intent
(element type of `Intent.participants` in part_005). -/
structure Participant where
  address : String
  share : ℚ
  paid : Bool
  txHash : Option String
deriving DecidableEq, Repr

/-- A payment or split record of the intent ledger (type `Intent` in part_005).
`type` is `"payment"` or `"split"`; `status` is `"unpaid"`, `"partial"` or
`"paid"`; optional JS fields are `Option`s (`undefined` is `none`). -/
structure Intent where
  id : String
  type : String
  amount : ℚ
  token : String
  recipient : String
  note : Option String
  status : String
  txHash : Option String
  createdAt : Nat
  participants : Option (List Participant)
  paidCount : Option Nat
  totalParticipants : Option Nat
deriving DecidableEq, Repr

/-- The in-memory store `intents : Map<string, Intent>`, as an association
list in insertion order (JS `Map` preserves insertion order). -/
abbrev Ledger := List (String × Intent)

/-- `intents.get(id)`. -/
def ledgerGet (L : Ledger) (id : String) : Option Intent :=
  match L with
  | [] => none
  | (k, v) :: rest => if k = id then some v else ledgerGet rest id

/-- `intents.set(id, v)`: replace the binding at `id`, or append a new one
(JS `Map.set` keeps the original insertion position of an existing key). -/
def ledgerSet (L : Ledger) (id : String) (v : Intent) : Ledger :=
  match L with
  | [] => [(id, v)]
  | (k, w) :: rest => if k = id then (id, v) :: rest else (k, w) :: ledgerSet rest id v

/-- JSON body sent back by the ledger handlers.  A field that JS leaves
`undefined` (and which `res.json` therefore omits) is `none`. -/
structure LedgerResponse where
  httpStatus : Nat
  ok : Option Bool := none
  error : Option String := none
  message : Option String := none
  paidCount : Option Nat := none
  totalParticipants : Option Nat := none
  status : Option String := none
deriving DecidableEq, Repr

/-! ### Server handlers -/

/-- The predicate of `intent.participants.find` in the POST /split/:id/pay
handler: case-insensitive address match against the request body. -/
def addrMatches (participantAddress : String) (p : Participant) : Bool :=
  lowerStr p.address == lowerStr participantAddress

/-- The in-place mutation `participant.paid = true; participant.txHash = txHash`
performed on the participant returned by `find`, i.e. on the FIRST
case-insensitive address match. -/
def markFirstPaid (participantAddress txHash : String) :
    List Participant → List Participant
  | [] => []
  | p :: rest =>
    if addrMatches participantAddress p then
      { p with paid := true, txHash := some txHash } :: rest
    else
      p :: markFirstPaid participantAddress txHash rest

/-- The mutation block of the POST /split/:id/pay handler (part_005 lines
257-268): mark the first matching participant paid, bump `paidCount`, and
recompute the overall status (`paid` when the new count equals
`totalParticipants`, else `partial` since the new count is positive,
else — unreachably — unchanged). -/
def splitPayUpdatedIntent (intent : Intent) (participantAddress txHash : String)
    (ps : List Participant) : Intent :=
  let newPaidCount := (intent.paidCount.getD 0) + 1
  let newStatus :=
    if intent.totalParticipants = some newPaidCount then "paid"
    else if newPaidCount > 0 then "partial"
    else intent.status
  { intent with
    participants := some (markFirstPaid participantAddress txHash ps)
    paidCount := some newPaidCount
    status := newStatus }

/-- POST /split/:id/pay handler (part_005 lines 232-280): mark a participant
of a split as paid and recompute the overall status.  Returns the ledger
after the request together with the JSON response. -/
def splitPay (L : Ledger) (id participantAddress txHash : String) :
    Ledger × LedgerResponse :=
  match ledgerGet L id with
  | none => (L, { httpStatus := 404, error := some "Split not found" })
  | some intent =>
    if intent.type ≠ "split" then
      (L, { httpStatus := 404, error := some "Split not found" })
    else
      match intent.participants with
      | none => (L, { httpStatus := 400, error := some "Invalid split data" })
      | some ps =>
        match ps.find? (addrMatches participantAddress) with
        | none => (L, { httpStatus := 404, error := some "Participant not found" })
        | some participant =>
          if participant.paid then
            (L, { httpStatus := 200, ok := some true, message := some "Already paid" })
          else
            let intent' := splitPayUpdatedIntent intent participantAddress txHash ps
            (ledgerSet L id intent',
              { httpStatus := 200
                ok := some true
                paidCount := intent'.paidCount
                totalParticipants := intent.totalParticipants
                status := some intent'.status })

/-- POST /fusion/callback handler (part_005 lines 287-308): mark a
single-payment intent as paid.  `txHash` is the raw request-body string;
`txHash || undefined` stores `none` exactly when the string is empty. -/
def fusionCallback (L : Ledger) (intentId txHash : String) :
    Ledger × LedgerResponse :=
  match ledgerGet L intentId with
  | none => (L, { httpStatus := 404, error := some "Intent not found" })
  | some intent =>
    if intent.status = "paid" then
      (L, { httpStatus := 200, ok := some true, message := some "Already marked as paid" })
    else
      let intent' : Intent :=
        { intent with
          status := "paid"
          txHash := if txHash = "" then none else some txHash }
      (ledgerSet L intentId intent',
        { httpStatus := 200, ok := some true, message := some "Payment status updated" })

/-- The split intent constructed by the POST /create-split handler
(part_005 lines 196-213) from already-validated request data:
every participant starts unpaid, `paidCount` is 0 and
`totalParticipants` is the participant count. -/
def createSplitIntent (id : String) (amount : ℚ) (token recipient : String)
    (note : Option String) (participants : List (String × ℚ)) (createdAt : Nat) :
    Intent :=
  { id := id
    type := "split"
    amount := amount
    token := upperStr token
    recipient := trimStr recipient
    note := note
    status := "unpaid"
    txHash := none
    createdAt := createdAt
    participants := some (participants.map fun p =>
      { address := trimStr p.1, share := p.2, paid := false, txHash := none })
    paidCount := some 0
    totalParticipants := some participants.length }

/-- Run a sequence of POST /split/:id/pay requests
(each a triple of split id, participant address, transaction hash). -/
def runPays (L : Ledger) (ops : List (String × String × String)) : Ledger :=
  ops.foldl (fun acc o => (splitPay acc o.1 o.2.1 o.2.2).1) L

/-! ### Ledger invariant -/

/-- Number of participants currently marked paid. -/
def participantsPaidCount (ps : List Participant) : Nat :=
  ps.countP (fun p => p.paid)

/-- The participant list of an intent (empty when absent). -/
def splitParts (i : Intent) : List Participant := i.participants.getD []

/-- Consistency of one split intent: the stored `paidCount` counts the paid
participants, `totalParticipants` is the participant count, and the overall
status agrees with the paid count (`unpaid` when none, `partial` when some
but not all, `paid` when all of at least one).  Non-split intents are
unconstrained. -/
def splitInv (i : Intent) : Prop :=
  i.type = "split" →
  i.participants = some (splitParts i) ∧
  i.paidCount = some (participantsPaidCount (splitParts i)) ∧
  i.totalParticipants = some (splitParts i).length ∧
  (participantsPaidCount (splitParts i) = 0 → i.status = "unpaid") ∧
  (0 < participantsPaidCount (splitParts i) ∧
      participantsPaidCount (splitParts i) < (splitParts i).length →
    i.status = "partial") ∧
  (0 < participantsPaidCount (splitParts i) ∧
      participantsPaidCount (splitParts i) = (splitParts i).length →
    i.status = "paid")

/-- Every stored intent satisfies `splitInv`. -/
def ledgerInv (L : Ledger) : Prop := ∀ e ∈ L, splitInv e.2

instance instDecidableSplitInv (i : Intent) : Decidable (splitInv i) := by
  unfold splitInv
  infer_instance

instance instDecidableLedgerInv (L : Ledger) : Decidable (ledgerInv L) := by
  unfold ledgerInv
  infer_instance

/-! ### Route selector (src/src/pages/CreatePage.tsx, PayPage, lines 1492-1543) -/

/-- The user override `routeType : 'auto' | 'lifi' | 'uniswap'`. -/
inductive RouteType
  | auto
  | lifi
  | uniswap
deriving DecidableEq, Repr

/-- `const isTestnet = chainId === 11155111; // Sepolia` -/
def isTestnet (chainId : Nat) : Bool := chainId == 11155111

/-- `const isSameChainAsRecipient = chainId === 137;` (recipient settles on
Polygon, chain id 137). -/
def isSameChainAsRecipient (chainId : Nat) : Bool := chainId == 137

/-- `const useUniswap = isTestnet || routeType === 'uniswap' ||
(routeType === 'auto' && isSameChainAsRecipient);` — `true` selects the
same-chain Uniswap strategy, `false` the cross-chain LI.FI strategy. -/
def useUniswap (chainId : Nat) (routeType : RouteType) : Bool :=
  isTestnet chainId || routeType == RouteType.uniswap ||
    (routeType == RouteType.auto && isSameChainAsRecipient chainId)

/-- The `routeReason` display string (CreatePage.tsx lines 1537-1543). -/
def routeReason (chainId : Nat) (routeType : RouteType) : String :=
  if isTestnet chainId then "Testnet (LI.FI not supported)"
  else if isSameChainAsRecipient chainId && routeType == RouteType.auto then
    "Same-chain swap (faster & cheaper)"
  else if routeType == RouteType.uniswap then "You selected Uniswap"
  else "Cross-chain via LI.FI"

/-! ### Quote request guard (CreatePage.tsx, PayPage, lines 1592-1634) -/

/-- The fields of the loaded intent that `handleGetQuote` reads. -/
structure IntentView where
  amount : ℚ
  recipient : String
deriving DecidableEq, Repr

/-- `const finalRecipient = recipientIsENS ? resolvedAddress : intent?.recipient;`
with `recipientIsENS = intent?.recipient?.endsWith('.eth')`. -/
def finalRecipient (intent : Option IntentView) (resolvedAddress : Option String) :
    Option String :=
  match intent with
  | none => none
  | some i => if strEndsWith i.recipient ".eth" then resolvedAddress else some i.recipient

/-- Which Quote Provider a call of `handleGetQuote` contacts. -/
inductive QuoteCall
  | noCall
  | uniswapQuote
  | lifiQuote
deriving DecidableEq, Repr

/-- `handleGetQuote` (CreatePage.tsx lines 1615-1634): the guard
`if (!intent || !address || !finalRecipient) return;` returns without any
state update; otherwise the selected provider hook is invoked (whose first
action is `setStatus('fetching-quote')`).  Returns the provider contacted
and the payment-attempt status after the call, given the status before. -/
def handleGetQuote (intent : Option IntentView) (address : Option String)
    (resolvedAddress : Option String) (uniswapRoute : Bool)
    (statusBefore : String) : QuoteCall × String :=
  if intent.isNone || address.isNone ||
      (finalRecipient intent resolvedAddress).isNone then
    (QuoteCall.noCall, statusBefore)
  else if uniswapRoute then (QuoteCall.uniswapQuote, "fetching-quote")
  else (QuoteCall.lifiQuote, "fetching-quote")

/-! ### Payment execution: confirmation step
(useUniswapPayment, src/unnamed/part_002 lines 619-656, the variant with
confirmation fallback) -/

/-- `timeout: 60_000` passed to `waitForTransactionReceipt`. -/
def confirmationTimeoutMs : Nat := 60000

/-- State owned by the `useUniswapPayment` hook: `status`, `quote`,
`error`, `txHash`.  The quote is kept abstract by its wei amounts. -/
structure SwapQuote where
  chainId : Nat
  usdcOutWei : Int
  maxEthInWei : Int
deriving DecidableEq, Repr

/-- The four `useState` cells of `useUniswapPayment`. -/
structure SwapState where
  status : String
  quote : Option SwapQuote
  error : Option String
  txHash : Option String
deriving DecidableEq, Repr

/-- Outcome of the fallback `publicClient.getTransaction({ hash })` call:
it returns a transaction, returns `null`, or throws. -/
inductive TxLookupResult
  | found
  | notFoundNull
  | threw
deriving DecidableEq, Repr

/-- The confirmation step of `executeSwap` after `setTxHash(hash)`
(part_002 lines 619-657): wait for a mined receipt with a 60-second
timeout; on timeout or error fall back to a plain transaction lookup;
succeed iff either signal was positive, otherwise transition to `error`
with the may-not-have-been-broadcast message.  `receiptOk` is whether
`waitForTransactionReceipt` returned a receipt within the timeout. -/
def confirmAfterSend (st : SwapState) (receiptOk : Bool)
    (lookup : TxLookupResult) : SwapState :=
  let confirmed := receiptOk || lookup == TxLookupResult.found
  if confirmed then { st with status := "success" }
  else
    { st with
      status := "error"
      error := some "Transaction may not have been broadcast. Please check your wallet and try again." }

/-! ### Payment execution: error classification and reset
(useUniswapPayment catch handler, part_002 lines 659-668, and `reset`,
lines 674-679; the useLiFiPayment handler at lines 872-882 is identical
in structure) -/

/-- The caught JS error value: optional numeric `code` and optional
string `message`. -/
structure JsError where
  code : Option Int
  message : Option String
deriving DecidableEq, Repr

/-- `err?.message?.includes('rejected')` — `false` when `message` is
absent. -/
def messageIncludesRejected (e : JsError) : Bool :=
  match e.message with
  | some m => strIncludes m "rejected"
  | none => false

/-- `err?.code === 4001 || err?.message?.includes('rejected')` — the
signature-rejection test of the catch handler. -/
def isUserRejection (e : JsError) : Bool :=
  e.code == some 4001 || messageIncludesRejected e

/-- `err?.message || 'fallback'`: JS `||` falls through on an absent or
empty message. -/
def messageOrDefault (m : Option String) (d : String) : String :=
  match m with
  | some s => if s = "" then d else s
  | none => d

/-- The catch handler of `executeSwap`: set a rejection-specific or
generic error message and transition to `error`. -/
def applyCatch (st : SwapState) (e : JsError) : SwapState :=
  { st with
    status := "error"
    error := some (if isUserRejection e then "Transaction rejected by user"
      else messageOrDefault e.message "Swap execution failed") }

/-- `reset` (part_002 lines 674-679): back to `idle` with quote, error and
transaction hash cleared. -/
def resetSwap (_ : SwapState) : SwapState :=
  { status := "idle", quote := none, error := none, txHash := none }

/-! ### Slippage helper (part_001 lines 168-171; identical Sepolia variant
at part_002 lines 176-179) -/

/-- `calculateMaxInput(estimatedAmount, slippagePercent)`:
`const slippageBps = BigInt(Math.floor(slippagePercent * 100));
return estimatedAmount + (estimatedAmount * slippageBps) / 10000n;`
BigInt division truncates toward zero (`Int.tdiv`); `slippagePercent` is
modelled as an exact rational. -/
def calculateMaxInput (estimatedAmount : Int) (slippagePercent : ℚ) : Int :=
  let slippageBps : Int := Int.floor (slippagePercent * 100)
  estimatedAmount + Int.tdiv (estimatedAmount * slippageBps) 10000

/-! ### Concrete sample data (used to instantiate the general theorems) -/

/-- A freshly created two-person split (the shape produced by
POST /create-split). -/
def sampleSplit : Intent :=
  { id := "split_1"
    type := "split"
    amount := 100
    token := "USDC"
    recipient := "0xReceiver"
    note := none
    status := "unpaid"
    txHash := none
    createdAt := 0
    participants := some
      [ { address := "0xAa", share := 60, paid := false, txHash := none },
        { address := "0xBb", share := 40, paid := false, txHash := none } ]
    paidCount := some 0
    totalParticipants := some 2 }

/-- A ledger holding only `sampleSplit`. -/
def sampleLedger : Ledger := [("split_1", sampleSplit)]

/-- A split whose single participant has already paid. -/
def samplePaidSplit : Intent :=
  { id := "split_2"
    type := "split"
    amount := 50
    token := "USDC"
    recipient := "0xReceiver"
    note := none
    status := "paid"
    txHash := none
    createdAt := 0
    participants := some
      [ { address := "0xAa", share := 100, paid := true, txHash := some "0x1" } ]
    paidCount := some 1
    totalParticipants := some 1 }

/-- A ledger holding only `samplePaidSplit`. -/
def samplePaidLedger : Ledger := [("split_2", samplePaidSplit)]

/-- An unpaid single-payment intent. -/
def samplePayment : Intent :=
  { id := "intent_1"
    type := "payment"
    amount := 25
    token := "USDC"
    recipient := "0xReceiver"
    note := none
    status := "unpaid"
    txHash := none
    createdAt := 0
    participants := none
    paidCount := none
    totalParticipants := none }

/-- A ledger holding only `samplePayment`. -/
def samplePaymentLedger : Ledger := [("intent_1", samplePayment)]

/-- `sampleSplit` after participant `0xAa` has paid. -/
def sampleAfterOnePay : Intent :=
  { sampleSplit with
    status := "partial"
    participants := some
      [ { address := "0xAa", share := 60, paid := true, txHash := some "0xh1" },
        { address := "0xBb", share := 40, paid := false, txHash := none } ]
    paidCount := some 1 }

/-- `sampleSplit` after both participants have paid. -/
def sampleAfterBothPay : Intent :=
  { sampleSplit with
    status := "paid"
    participants := some
      [ { address := "0xAa", share := 60, paid := true, txHash := some "0xh1" },
        { address := "0xBb", share := 40, paid := true, txHash := some "0xh2" } ]
    paidCount := some 2 }

/-! ## Theorems -/

/-! ### Ledger and participant-list lemmas -/

theorem ledgerGet_set_self (L : Ledger) (id : String) (v : Intent) :
    ledgerGet (ledgerSet L id v) id = some v := by
  induction L with
  | nil => simp [ledgerSet, ledgerGet]
  | cons e rest ih =>
    obtain ⟨k, w⟩ := e
    by_cases h : k = id
    · simp [ledgerSet, ledgerGet, h]
    · simp [ledgerSet, ledgerGet, h, ih]

theorem mem_ledgerSet {L : Ledger} {id : String} {v : Intent} {e : String × Intent}
    (he : e ∈ ledgerSet L id v) : e = (id, v) ∨ e ∈ L := by
  induction L with
  | nil => simpa [ledgerSet] using he
  | cons f rest ih =>
    obtain ⟨k, w⟩ := f
    by_cases h : k = id
    · rw [ledgerSet, if_pos h] at he
      rcases List.mem_cons.mp he with h1 | h1
      · exact Or.inl h1
      · exact Or.inr (List.mem_cons_of_mem _ h1)
    · rw [ledgerSet, if_neg h] at he
      rcases List.mem_cons.mp he with h1 | h1
      · exact Or.inr (h1 ▸ List.mem_cons_self _ _)
      · rcases ih h1 with h2 | h2
        · exact Or.inl h2
        · exact Or.inr (List.mem_cons_of_mem _ h2)

theorem ledgerGet_mem {L : Ledger} {id : String} {i : Intent}
    (h : ledgerGet L id = some i) : (id, i) ∈ L := by
  induction L with
  | nil => simp [ledgerGet] at h
  | cons e rest ih =>
    obtain ⟨k, w⟩ := e
    by_cases hk : k = id
    · rw [ledgerGet, if_pos hk] at h
      obtain rfl : w = i := by injection h
      exact hk ▸ List.mem_cons_self _ _
    · rw [ledgerGet, if_neg hk] at h
      exact List.mem_cons_of_mem _ (ih h)

theorem addrMatches_mark (addr tx : String) (q : Participant) :
    addrMatches addr { q with paid := true, txHash := some tx } = addrMatches addr q := rfl

theorem markFirstPaid_length (addr tx : String) (ps : List Participant) :
    (markFirstPaid addr tx ps).length = ps.length := by
  induction ps with
  | nil => rfl
  | cons p rest ih =>
    by_cases h : addrMatches addr p <;> simp [markFirstPaid, h, ih]

theorem find?_markFirstPaid {addr : String} (tx : String) {ps : List Participant}
    {q : Participant} (h : ps.find? (addrMatches addr) = some q) :
    (markFirstPaid addr tx ps).find? (addrMatches addr) =
      some { q with paid := true, txHash := some tx } := by
  induction ps with
  | nil => simp [List.find?] at h
  | cons p rest ih =>
    by_cases hp : addrMatches addr p
    · rw [List.find?_cons_of_pos _ hp] at h
      obtain rfl : p = q := by injection h
      rw [markFirstPaid, if_pos hp]
      exact List.find?_cons_of_pos _ (by rw [addrMatches_mark]; exact hp)
    · rw [List.find?_cons_of_neg _ hp] at h
      rw [markFirstPaid, if_neg hp]
      rw [List.find?_cons_of_neg _ hp]
      exact ih h

theorem countP_markFirstPaid {addr : String} (tx : String) {ps : List Participant}
    {q : Participant} (h : ps.find? (addrMatches addr) = some q) (hq : q.paid = false) :
    participantsPaidCount (markFirstPaid addr tx ps) = participantsPaidCount ps + 1 := by
  induction ps with
  | nil => simp [List.find?] at h
  | cons p rest ih =>
    by_cases hp : addrMatches addr p
    · rw [List.find?_cons_of_pos _ hp] at h
      obtain rfl : p = q := by injection h
      rw [markFirstPaid, if_pos hp]
      simp [participantsPaidCount, List.countP_cons, hq]
    · rw [List.find?_cons_of_neg _ hp] at h
      rw [markFirstPaid, if_neg hp]
      simp only [participantsPaidCount, List.countP_cons] at ih ⊢
      rw [ih h]
      omega

/-! ### Branch equations of the split-pay handler -/

theorem splitPay_noIntent {L : Ledger} {id : String} (addr tx : String)
    (h : ledgerGet L id = none) :
    splitPay L id addr tx = (L, { httpStatus := 404, error := some "Split not found" }) := by
  simp [splitPay, h]

theorem splitPay_notSplit {L : Ledger} {id : String} {intent : Intent} (addr tx : String)
    (h : ledgerGet L id = some intent) (ht : intent.type ≠ "split") :
    splitPay L id addr tx = (L, { httpStatus := 404, error := some "Split not found" }) := by
  simp [splitPay, h, ht]

theorem splitPay_noParts {L : Ledger} {id : String} {intent : Intent} (addr tx : String)
    (h : ledgerGet L id = some intent) (ht : intent.type = "split")
    (hp : intent.participants = none) :
    splitPay L id addr tx = (L, { httpStatus := 400, error := some "Invalid split data" }) := by
  simp [splitPay, h, ht, hp]

theorem splitPay_noParticipant {L : Ledger} {id : String} {intent : Intent}
    {ps : List Participant} {addr : String} (tx : String)
    (h : ledgerGet L id = some intent) (ht : intent.type = "split")
    (hp : intent.participants = some ps)
    (hf : ps.find? (addrMatches addr) = none) :
    splitPay L id addr tx = (L, { httpStatus := 404, error := some "Participant not found" }) := by
  simp [splitPay, h, ht, hp, hf]

theorem splitPay_alreadyPaid {L : Ledger} {id : String} {intent : Intent}
    {ps : List Participant} {addr : String} {q : Participant} (tx : String)
    (h : ledgerGet L id = some intent) (ht : intent.type = "split")
    (hp : intent.participants = some ps)
    (hf : ps.find? (addrMatches addr) = some q) (hq : q.paid = true) :
    splitPay L id addr tx =
      (L, { httpStatus := 200, ok := some true, message := some "Already paid" }) := by
  simp [splitPay, h, ht, hp, hf, hq]

theorem splitPay_marks {L : Ledger} {id : String} {intent : Intent}
    {ps : List Participant} {addr : String} {q : Participant} (tx : String)
    (h : ledgerGet L id = some intent) (ht : intent.type = "split")
    (hp : intent.participants = some ps)
    (hf : ps.find? (addrMatches addr) = some q) (hq : q.paid = false) :
    splitPay L id addr tx =
      (ledgerSet L id (splitPayUpdatedIntent intent addr tx ps),
        { httpStatus := 200
          ok := some true
          paidCount := (splitPayUpdatedIntent intent addr tx ps).paidCount
          totalParticipants := intent.totalParticipants
          status := some (splitPayUpdatedIntent intent addr tx ps).status }) := by
  simp [splitPay, h, ht, hp, hf, hq]

/-! ### Invariant preservation and idempotence of the split-pay handler -/

theorem splitPayUpdatedIntent_inv {intent : Intent} {ps : List Participant}
    {addr : String} {q : Participant} (tx : String)
    (hSI : splitInv intent) (hT : intent.type = "split")
    (hPs : intent.participants = some ps)
    (hFind : ps.find? (addrMatches addr) = some q) (hq : q.paid = false) :
    splitInv (splitPayUpdatedIntent intent addr tx ps) := by
  obtain ⟨-, hc, ht, -⟩ := hSI hT
  have hparts : splitParts intent = ps := by simp [splitParts, hPs]
  rw [hparts] at hc ht
  have hparts' : splitParts (splitPayUpdatedIntent intent addr tx ps) =
      markFirstPaid addr tx ps := by
    simp [splitParts, splitPayUpdatedIntent]
  have hcount : participantsPaidCount (markFirstPaid addr tx ps) =
      participantsPaidCount ps + 1 := countP_markFirstPaid tx hFind hq
  have hlen : (markFirstPaid addr tx ps).length = ps.length :=
    markFirstPaid_length addr tx ps
  have hgetD : intent.paidCount.getD 0 = participantsPaidCount ps := by
    rw [hc]; rfl
  have hstat : (splitPayUpdatedIntent intent addr tx ps).status =
      (if intent.totalParticipants = some (intent.paidCount.getD 0 + 1) then "paid"
        else if intent.paidCount.getD 0 + 1 > 0 then "partial" else intent.status) := rfl
  intro _hT'
  rw [hparts', hcount, hlen]
  refine ⟨?_, ?_, ?_, ?_, ?_, ?_⟩
  · simp [splitPayUpdatedIntent, hparts']
  · simp [splitPayUpdatedIntent, hgetD]
  · simp [splitPayUpdatedIntent, ht]
  · intro hAbs
    exfalso
    omega
  · intro hlt
    rw [hstat, hgetD, ht, if_neg (by simp; omega), if_pos (by omega)]
  · intro heq
    rw [hstat, hgetD, ht, if_pos (by rw [heq.2])]

theorem splitPay_fst_inv (L : Ledger) (id addr tx : String) (hInv : ledgerInv L) :
    ledgerInv (splitPay L id addr tx).1 := by
  rcases hGet : ledgerGet L id with _ | intent
  · rw [splitPay_noIntent addr tx hGet]; exact hInv
  · by_cases hT : intent.type = "split"
    · rcases hPs : intent.participants with _ | ps
      · rw [splitPay_noParts addr tx hGet hT hPs]; exact hInv
      · rcases hFind : ps.find? (addrMatches addr) with _ | q
        · rw [splitPay_noParticipant tx hGet hT hPs hFind]; exact hInv
        · cases hq : q.paid
          · rw [splitPay_marks tx hGet hT hPs hFind hq]
            intro e he
            rcases mem_ledgerSet he with rfl | heL
            · exact splitPayUpdatedIntent_inv tx
                (hInv _ (ledgerGet_mem hGet)) hT hPs hFind hq
            · exact hInv e heL
          · rw [splitPay_alreadyPaid tx hGet hT hPs hFind hq]; exact hInv
    · rw [splitPay_notSplit addr tx hGet hT]; exact hInv

theorem runPays_inv (ops : List (String × String × String)) (L : Ledger)
    (h : ledgerInv L) : ledgerInv (runPays L ops) := by
  induction ops generalizing L with
  | nil => exact h
  | cons o rest ih =>
    simp only [runPays, List.foldl_cons]
    exact ih _ (splitPay_fst_inv L o.1 o.2.1 o.2.2 h)

theorem splitPay_ledger_idem (L : Ledger) (id addr tx : String) :
    (splitPay (splitPay L id addr tx).1 id addr tx).1 = (splitPay L id addr tx).1 := by
  rcases hGet : ledgerGet L id with _ | intent
  · simp [splitPay_noIntent addr tx hGet]
  · by_cases hT : intent.type = "split"
    · rcases hPs : intent.participants with _ | ps
      · simp [splitPay_noParts addr tx hGet hT hPs]
      · rcases hFind : ps.find? (addrMatches addr) with _ | q
        · simp [splitPay_noParticipant tx hGet hT hPs hFind]
        · cases hq : q.paid
          · rw [splitPay_marks tx hGet hT hPs hFind hq]
            have hGet' := ledgerGet_set_self L id (splitPayUpdatedIntent intent addr tx ps)
            have hT' : (splitPayUpdatedIntent intent addr tx ps).type = "split" := by
              simpa [splitPayUpdatedIntent] using hT
            have hPs' : (splitPayUpdatedIntent intent addr tx ps).participants =
                some (markFirstPaid addr tx ps) := by
              simp [splitPayUpdatedIntent]
            have hFind' := find?_markFirstPaid tx hFind
            have h2 := splitPay_alreadyPaid tx hGet' hT' hPs' hFind' rfl
            rw [h2]
          · simp [splitPay_alreadyPaid tx hGet hT hPs hFind hq]
    · simp [splitPay_notSplit addr tx hGet hT]

/-- C4: for every current chain id that is a known test network (the code's
testnet set is exactly Sepolia, 11155111), the route selector chooses the
same-chain Uniswap strategy regardless of the user override. -/
theorem testnetForcesSameChain (chainId : Nat) (routeType : RouteType)
    (h : isTestnet chainId = true) : useUniswap chainId routeType = true := by
  simp [useUniswap, h]

/-- Witness for C4: Sepolia with the cross-chain override still selects the
same-chain strategy. -/
theorem testnetForcesSameChain_witness :
    isTestnet 11155111 = true ∧ useUniswap 11155111 RouteType.lifi = true :=
  ⟨by decide, testnetForcesSameChain 11155111 RouteType.lifi (by decide)⟩

/-- C5: for every non-testnet chain id equal to the settlement chain, the
`auto` override selects the same-chain strategy with justification exactly
"Same-chain swap (faster & cheaper)". -/
theorem autoSameChainRoute (chainId : Nat)
    (hT : isTestnet chainId = false) (hS : isSameChainAsRecipient chainId = true) :
    useUniswap chainId RouteType.auto = true ∧
      routeReason chainId RouteType.auto = "Same-chain swap (faster & cheaper)" := by
  refine ⟨?_, ?_⟩ <;> simp [useUniswap, routeReason, hT, hS]

/-- Witness for C5: Polygon (137) under `auto`. -/
theorem autoSameChainRoute_witness :
    (isTestnet 137 = false ∧ isSameChainAsRecipient 137 = true) ∧
      useUniswap 137 RouteType.auto = true ∧
      routeReason 137 RouteType.auto = "Same-chain swap (faster & cheaper)" :=
  ⟨⟨by decide, by decide⟩, autoSameChainRoute 137 (by decide) (by decide)⟩

/-- C10: `calculateMaxInput` computes exactly
`estimatedAmount + (estimatedAmount * floor(slippagePercent * 100)) / 10000`
in truncating integer arithmetic, the result is at least `estimatedAmount`
whenever both arguments are nonnegative, and it equals `estimatedAmount`
when the slippage is zero. -/
theorem calculateMaxInputProperties :
    (∀ (est : Int) (slip : ℚ), calculateMaxInput est slip =
      est + Int.tdiv (est * Int.floor (slip * 100)) 10000) ∧
    (∀ (est : Int) (slip : ℚ), 0 ≤ est → 0 ≤ slip →
      est ≤ calculateMaxInput est slip) ∧
    (∀ est : Int, calculateMaxInput est 0 = est) := by
  refine ⟨fun est slip => rfl, fun est slip hest hslip => ?_, fun est => ?_⟩
  · have hbps : (0 : Int) ≤ Int.floor (slip * 100) := by positivity
    have hmul : (0 : Int) ≤ est * Int.floor (slip * 100) := mul_nonneg hest hbps
    have hdiv : (0 : Int) ≤ Int.tdiv (est * Int.floor (slip * 100)) 10000 :=
      Int.tdiv_nonneg hmul (by norm_num)
    simp only [calculateMaxInput]
    omega
  · simp [calculateMaxInput]

/-- Witness for C10: a concrete instance with 0.5% slippage. -/
theorem calculateMaxInputProperties_witness :
    calculateMaxInput 1000000 (1 / 2) =
        1000000 + Int.tdiv (1000000 * Int.floor ((1 / 2 : ℚ) * 100)) 10000 ∧
      ((0 : Int) ≤ 1000000 ∧ (0 : ℚ) ≤ 1 / 2 ∧
        (1000000 : Int) ≤ calculateMaxInput 1000000 (1 / 2)) ∧
      calculateMaxInput 1000000 0 = 1000000 :=
  ⟨calculateMaxInputProperties.1 1000000 (1 / 2),
    ⟨by norm_num, by norm_num,
      calculateMaxInputProperties.2.1 1000000 (1 / 2) (by norm_num) (by norm_num)⟩,
    calculateMaxInputProperties.2.2 1000000⟩

/-- C3: the confirming step waits for a mined receipt with a 60-second
timeout; a successful wait yields `success`; a failed wait followed by a
transaction lookup that finds the transaction still yields `success`; if
the fallback lookup also finds nothing, the step yields `error` with the
may-not-have-been-broadcast message; and the step never yields `success`
without at least one positive signal. -/
theorem confirmationPolicy :
    confirmationTimeoutMs = 60000 ∧
    (∀ (st : SwapState) (lookup : TxLookupResult),
      confirmAfterSend st true lookup = { st with status := "success" }) ∧
    (∀ st : SwapState,
      confirmAfterSend st false TxLookupResult.found = { st with status := "success" }) ∧
    (∀ (st : SwapState) (lookup : TxLookupResult), lookup ≠ TxLookupResult.found →
      confirmAfterSend st false lookup =
        { st with
          status := "error"
          error := some "Transaction may not have been broadcast. Please check your wallet and try again." }) ∧
    (∀ (st : SwapState) (receiptOk : Bool) (lookup : TxLookupResult),
      (confirmAfterSend st receiptOk lookup).status = "success" →
      receiptOk = true ∨ lookup = TxLookupResult.found) := by
  refine ⟨rfl, fun st lookup => by simp [confirmAfterSend],
    fun st => by simp [confirmAfterSend],
    fun st lookup h => ?_, fun st receiptOk lookup h => ?_⟩
  · have hne : (lookup == TxLookupResult.found) = false := by
      cases lookup <;> simp_all
    simp [confirmAfterSend, hne]
  · by_cases hc : (receiptOk || lookup == TxLookupResult.found) = true
    · rcases Bool.or_eq_true_iff.mp hc with h1 | h1
      · exact Or.inl h1
      · exact Or.inr (by cases lookup <;> simp_all)
    · exfalso
      have hc' : (receiptOk || lookup == TxLookupResult.found) = false := by
        simpa using hc
      simp [confirmAfterSend, hc'] at h

/-- Witness for C3: a concrete confirming state where the receipt wait
fails but the lookup finds the transaction, and one where neither does. -/
theorem confirmationPolicy_witness :
    confirmAfterSend ⟨"executing", none, none, some "0xabc"⟩ false TxLookupResult.found =
        { status := "success", quote := none, error := none, txHash := some "0xabc" } ∧
      (TxLookupResult.threw ≠ TxLookupResult.found ∧
        confirmAfterSend ⟨"executing", none, none, some "0xabc"⟩ false TxLookupResult.threw =
          { status := "error", quote := none
            error := some "Transaction may not have been broadcast. Please check your wallet and try again."
            txHash := some "0xabc" }) :=
  ⟨confirmationPolicy.2.2.1 ⟨"executing", none, none, some "0xabc"⟩,
    by decide,
    confirmationPolicy.2.2.2.1 ⟨"executing", none, none, some "0xabc"⟩
      TxLookupResult.threw (by decide)⟩

/-- C9: a declined signature (code 4001 or a message containing
"rejected") ends the attempt in `error` with the rejection-specific
message "Transaction rejected by user"; every other failure also ends in
`error` but never with that message; and `reset` returns to `idle` with
quote, error and transaction hash all cleared. -/
theorem rejectionAndReset :
    (∀ (st : SwapState) (e : JsError), isUserRejection e = true →
      applyCatch st e =
        { st with status := "error", error := some "Transaction rejected by user" }) ∧
    (∀ (st : SwapState) (e : JsError), isUserRejection e = false →
      (applyCatch st e).status = "error" ∧
        (applyCatch st e).error ≠ some "Transaction rejected by user") ∧
    (∀ st : SwapState,
      resetSwap st = { status := "idle", quote := none, error := none, txHash := none }) := by
  refine ⟨fun st e h => by simp [applyCatch, h], fun st e h => ⟨rfl, ?_⟩, fun st => rfl⟩
  have hmir : messageIncludesRejected e = false := by
    simp only [isUserRejection, Bool.or_eq_false_iff] at h
    exact h.2
  simp only [applyCatch, h, Bool.false_eq_true, if_false, ne_eq, Option.some.injEq]
  intro hEq
  rcases hm : e.message with _ | s
  · rw [hm] at hEq
    simp [messageOrDefault] at hEq
  · rw [hm] at hEq
    simp only [messageOrDefault] at hEq
    by_cases hs : s = ""
    · rw [if_pos hs] at hEq
      exact absurd hEq (by decide)
    · rw [if_neg hs] at hEq
      rw [messageIncludesRejected, hm, hEq] at hmir
      exact absurd hmir (by decide)

/-- Witness for C9: the MetaMask rejection error (code 4001), a generic
failure, and a reset from the resulting error state. -/
theorem rejectionAndReset_witness :
    (isUserRejection ⟨some 4001, some "User rejected the request"⟩ = true ∧
      applyCatch ⟨"executing", none, none, none⟩ ⟨some 4001, some "User rejected the request"⟩ =
        { status := "error", quote := none
          error := some "Transaction rejected by user", txHash := none }) ∧
    (isUserRejection ⟨none, some "insufficient funds"⟩ = false ∧
      (applyCatch ⟨"executing", none, none, none⟩ ⟨none, some "insufficient funds"⟩).status = "error" ∧
      (applyCatch ⟨"executing", none, none, none⟩ ⟨none, some "insufficient funds"⟩).error ≠
        some "Transaction rejected by user") ∧
    resetSwap ⟨"error", none, some "Transaction rejected by user", some "0x1"⟩ =
      { status := "idle", quote := none, error := none, txHash := none } :=
  ⟨⟨by decide,
      rejectionAndReset.1 ⟨"executing", none, none, none⟩
        ⟨some 4001, some "User rejected the request"⟩ (by decide)⟩,
    ⟨by decide,
      rejectionAndReset.2.1 ⟨"executing", none, none, none⟩
        ⟨none, some "insufficient funds"⟩ (by decide)⟩,
    rejectionAndReset.2.2 ⟨"error", none, some "Transaction rejected by user", some "0x1"⟩⟩

/-- C8 counterexample: with an ENS recipient that failed to resolve
(`resolvedAddress` is `null`), `handleGetQuote` contacts no Quote Provider
but also performs no state transition at all — the attempt stays `idle`
instead of transitioning to `error`, contrary to the claim. -/
theorem quoteGuardNoErrorTransition_counterexample :
    handleGetQuote (some ⟨25, "alice.eth"⟩) (some "0xPayer") none true "idle" =
        (QuoteCall.noCall, "idle") ∧
      "idle" ≠ "error" := by
  refine ⟨by decide, by decide⟩

/-- C8 amended: whenever the destination address is missing (no recipient,
or an ENS name that did not resolve), `handleGetQuote` returns early:
no Quote Provider is contacted and the payment-attempt status is left
unchanged (in particular it does not transition to `error`). -/
theorem quoteGuardFailFast (intent : Option IntentView) (address : Option String)
    (resolvedAddress : Option String) (uniswapRoute : Bool) (statusBefore : String)
    (h : finalRecipient intent resolvedAddress = none) :
    handleGetQuote intent address resolvedAddress uniswapRoute statusBefore =
      (QuoteCall.noCall, statusBefore) := by
  simp [handleGetQuote, h]

/-- Witness for C8 amended: the unresolved-ENS input. -/
theorem quoteGuardFailFast_witness :
    finalRecipient (some ⟨25, "alice.eth"⟩) none = none ∧
      handleGetQuote (some ⟨25, "alice.eth"⟩) (some "0xPayer") none true "idle" =
        (QuoteCall.noCall, "idle") :=
  ⟨by decide,
    quoteGuardFailFast (some ⟨25, "alice.eth"⟩) (some "0xPayer") none true "idle" (by decide)⟩

/-- C1: the split-participant-pay operation is idempotent on the ledger —
repeating a request with identical (splitId, participantAddress, txHash)
leaves the ledger exactly as after the first request (so `paid` is not
flipped back, `txHash` is not overwritten and `paidCount` is not
incremented again) — and after any sequence of pay operations on a
well-formed ledger, `paidCount` never exceeds `totalParticipants`. -/
theorem splitPayIdempotentAndBounded :
    (∀ (L : Ledger) (id addr tx : String),
      (splitPay (splitPay L id addr tx).1 id addr tx).1 = (splitPay L id addr tx).1) ∧
    (∀ (L : Ledger) (ops : List (String × String × String)) (id : String)
        (i : Intent) (k N : Nat), ledgerInv L →
      ledgerGet (runPays L ops) id = some i → i.type = "split" →
      i.paidCount = some k → i.totalParticipants = some N → k ≤ N) := by
  refine ⟨splitPay_ledger_idem, ?_⟩
  intro L ops id i k N hInv hGet hT hk hN
  obtain ⟨-, hc, ht, -⟩ := runPays_inv ops L hInv _ (ledgerGet_mem hGet) hT
  rw [hk] at hc
  rw [hN] at ht
  obtain rfl : k = participantsPaidCount (splitParts i) := by injection hc
  obtain rfl : N = (splitParts i).length := by injection ht
  exact List.countP_le_length _

/-- Witness for C1: paying participant `0xAA` of the sample split twice,
and the bound after one pay operation on the sample ledger. -/
theorem splitPayIdempotentAndBounded_witness :
    ledgerInv sampleLedger ∧
      (splitPay (splitPay sampleLedger "split_1" "0xAA" "0xh1").1 "split_1" "0xAA" "0xh1").1 =
        (splitPay sampleLedger "split_1" "0xAA" "0xh1").1 ∧
      (1 : Nat) ≤ 2 :=
  ⟨by decide,
    splitPayIdempotentAndBounded.1 sampleLedger "split_1" "0xAA" "0xh1",
    splitPayIdempotentAndBounded.2 sampleLedger [("split_1", "0xAA", "0xh1")] "split_1"
      sampleAfterOnePay 1 2 (by decide) (by decide) (by decide) (by decide) (by decide)⟩

/-- C2: after any sequence of pay operations on a well-formed ledger, a
split intent with N participants of which k are marked paid has status
`paid` when k = N, `partial` when 0 < k < N, and the unchanged initial
`unpaid` when k = 0. -/
theorem splitStatusDerivation :
    ∀ (L : Ledger) (ops : List (String × String × String)) (id : String)
      (i : Intent) (ps : List Participant), ledgerInv L →
      ledgerGet (runPays L ops) id = some i → i.type = "split" →
      i.participants = some ps → 0 < ps.length →
      ((participantsPaidCount ps = ps.length → i.status = "paid") ∧
        (0 < participantsPaidCount ps ∧ participantsPaidCount ps < ps.length →
          i.status = "partial") ∧
        (participantsPaidCount ps = 0 → i.status = "unpaid")) := by
  intro L ops id i ps hInv hGet hT hPs hN
  have hSI := runPays_inv ops L hInv _ (ledgerGet_mem hGet) hT
  have hparts : splitParts i = ps := by simp [splitParts, hPs]
  rw [hparts] at hSI
  obtain ⟨-, -, -, h0, hpart, hfull⟩ := hSI
  exact ⟨fun h => hfull ⟨by omega, h⟩, hpart, h0⟩

/-- Witness for C2: after both sample participants pay, the sample split
has k = N = 2 and status `paid`. -/
theorem splitStatusDerivation_witness :
    ledgerInv sampleLedger ∧ sampleAfterBothPay.status = "paid" :=
  ⟨by decide,
    (splitStatusDerivation sampleLedger
        [("split_1", "0xAA", "0xh1"), ("split_1", "0xBB", "0xh2")] "split_1"
        sampleAfterBothPay
        [ { address := "0xAa", share := 60, paid := true, txHash := some "0xh1" },
          { address := "0xBb", share := 40, paid := true, txHash := some "0xh2" } ]
        (by decide) (by decide) (by decide) (by decide) (by decide)).1 (by decide)⟩

/-- Branch equation: /fusion/callback on a not-yet-paid intent marks it
paid and stores the (nonempty) transaction hash. -/
theorem fusionCallback_marks {L : Ledger} {id : String} {i : Intent} (tx : String)
    (h : ledgerGet L id = some i) (hp : i.status ≠ "paid") :
    fusionCallback L id tx =
      (ledgerSet L id
          { i with status := "paid", txHash := if tx = "" then none else some tx },
        { httpStatus := 200, ok := some true, message := some "Payment status updated" }) := by
  simp [fusionCallback, h, hp]

/-- Branch equation: /fusion/callback on an already-paid intent is a no-op
that still returns success. -/
theorem fusionCallback_alreadyPaid {L : Ledger} {id : String} {i : Intent} (tx : String)
    (h : ledgerGet L id = some i) (hp : i.status = "paid") :
    fusionCallback L id tx =
      (L, { httpStatus := 200, ok := some true, message := some "Already marked as paid" }) := by
  simp [fusionCallback, h, hp]

/-- C6: POST /fusion/callback on a stored, not-yet-paid intent sets its
status to `paid` and stores the transaction hash, and calling it again
with the same (intentId, txHash) leaves the ledger unchanged and still
returns a success (HTTP 200, ok) response. -/
theorem fusionCallbackPaidAndIdempotent :
    ∀ (L : Ledger) (intentId tx : String) (i : Intent),
      ledgerGet L intentId = some i → i.status ≠ "paid" → tx ≠ "" →
      ledgerGet (fusionCallback L intentId tx).1 intentId =
          some { i with status := "paid", txHash := some tx } ∧
        (fusionCallback (fusionCallback L intentId tx).1 intentId tx).1 =
          (fusionCallback L intentId tx).1 ∧
        (fusionCallback (fusionCallback L intentId tx).1 intentId tx).2.httpStatus = 200 ∧
        (fusionCallback (fusionCallback L intentId tx).1 intentId tx).2.ok = some true := by
  intro L intentId tx i hGet hp htx
  have h1 := fusionCallback_marks tx hGet hp
  rw [if_neg htx] at h1
  have hL1 : (fusionCallback L intentId tx).1 =
      ledgerSet L intentId { i with status := "paid", txHash := some tx } := by
    rw [h1]
  have hGet' := ledgerGet_set_self L intentId { i with status := "paid", txHash := some tx }
  have h2 := fusionCallback_alreadyPaid tx hGet' rfl
  refine ⟨?_, ?_, ?_, ?_⟩ <;> rw [hL1]
  · exact hGet'
  · rw [h2]
  · rw [h2]
  · rw [h2]

/-- Witness for C6: completing the sample single-payment intent with
hash 0xdead, twice. -/
theorem fusionCallbackPaidAndIdempotent_witness :
    (ledgerGet samplePaymentLedger "intent_1" = some samplePayment ∧
        samplePayment.status ≠ "paid" ∧ "0xdead" ≠ "") ∧
      ledgerGet (fusionCallback samplePaymentLedger "intent_1" "0xdead").1 "intent_1" =
          some { samplePayment with status := "paid", txHash := some "0xdead" } ∧
        (fusionCallback (fusionCallback samplePaymentLedger "intent_1" "0xdead").1
            "intent_1" "0xdead").1 =
          (fusionCallback samplePaymentLedger "intent_1" "0xdead").1 :=
  ⟨⟨by decide, by decide, by decide⟩,
    (fusionCallbackPaidAndIdempotent samplePaymentLedger "intent_1" "0xdead" samplePayment
        (by decide) (by decide) (by decide)).1,
    (fusionCallbackPaidAndIdempotent samplePaymentLedger "intent_1" "0xdead" samplePayment
        (by decide) (by decide) (by decide)).2.1⟩

/-- C7 counterexample: paying an already-paid participant succeeds
(HTTP 200, ok, "Already paid") but the response omits `paidCount`,
`totalParticipants` and `status`, contrary to the claim. -/
theorem splitPayNoOpResponse_counterexample :
    (splitPay samplePaidLedger "split_2" "0xaa" "0x2").2.httpStatus = 200 ∧
      (splitPay samplePaidLedger "split_2" "0xaa" "0x2").2.ok = some true ∧
      (splitPay samplePaidLedger "split_2" "0xaa" "0x2").2.message = some "Already paid" ∧
      (splitPay samplePaidLedger "split_2" "0xaa" "0x2").2.paidCount = none ∧
      (splitPay samplePaidLedger "split_2" "0xaa" "0x2").2.totalParticipants = none ∧
      (splitPay samplePaidLedger "split_2" "0xaa" "0x2").2.status = none := by
  decide

/-- C7 amended: a successful split-pay response that actually marks a
participant carries `paidCount`, `totalParticipants` (whenever the stored
intent has it set, as every create-split intent does) and `status`; the
already-paid no-op success response carries only ok and a message. -/
theorem splitPayResponseFields :
    (∀ (L : Ledger) (id addr tx : String) (intent : Intent) (ps : List Participant)
        (q : Participant) (N : Nat),
      ledgerGet L id = some intent → intent.type = "split" →
      intent.participants = some ps → ps.find? (addrMatches addr) = some q →
      q.paid = false → intent.totalParticipants = some N →
      (splitPay L id addr tx).2.httpStatus = 200 ∧
        (splitPay L id addr tx).2.ok = some true ∧
        (splitPay L id addr tx).2.paidCount ≠ none ∧
        (splitPay L id addr tx).2.totalParticipants ≠ none ∧
        (splitPay L id addr tx).2.status ≠ none) ∧
    (∀ (L : Ledger) (id addr tx : String) (intent : Intent) (ps : List Participant)
        (q : Participant),
      ledgerGet L id = some intent → intent.type = "split" →
      intent.participants = some ps → ps.find? (addrMatches addr) = some q →
      q.paid = true →
      (splitPay L id addr tx).2 =
        { httpStatus := 200, ok := some true, message := some "Already paid" }) := by
  constructor
  · intro L id addr tx intent ps q N hGet hT hPs hFind hq hTot
    rw [splitPay_marks tx hGet hT hPs hFind hq]
    refine ⟨rfl, rfl, ?_, ?_, ?_⟩
    · simp [splitPayUpdatedIntent]
    · rw [hTot]
      simp
    · simp
  · intro L id addr tx intent ps q hGet hT hPs hFind hq
    rw [splitPay_alreadyPaid tx hGet hT hPs hFind hq]

/-- Witness for C7 amended: a marking pay on the sample split and a no-op
pay on the already-paid sample split. -/
theorem splitPayResponseFields_witness :
    ((splitPay sampleLedger "split_1" "0xAA" "0xh1").2.paidCount ≠ none ∧
        (splitPay sampleLedger "split_1" "0xAA" "0xh1").2.totalParticipants ≠ none ∧
        (splitPay sampleLedger "split_1" "0xAA" "0xh1").2.status ≠ none) ∧
      (splitPay samplePaidLedger "split_2" "0xAA" "0x2").2 =
        { httpStatus := 200, ok := some true, message := some "Already paid" } :=
  ⟨⟨((splitPayResponseFields.1 sampleLedger "split_1" "0xAA" "0xh1" sampleSplit
        (sampleSplit.participants.getD [])
        { address := "0xAa", share := 60, paid := false, txHash := none } 2
        (by decide) (by decide) (by decide) (by decide) (by decide) (by decide))).2.2.1,
      ((splitPayResponseFields.1 sampleLedger "split_1" "0xAA" "0xh1" sampleSplit
        (sampleSplit.participants.getD [])
        { address := "0xAa", share := 60, paid := false, txHash := none } 2
        (by decide) (by decide) (by decide) (by decide) (by decide) (by decide))).2.2.2.1,
      ((splitPayResponseFields.1 sampleLedger "split_1" "0xAA" "0xh1" sampleSplit
        (sampleSplit.participants.getD [])
        { address := "0xAa", share := 60, paid := false, txHash := none } 2
        (by decide) (by decide) (by decide) (by decide) (by decide) (by decide))).2.2.2.2⟩,
    splitPayResponseFields.2 samplePaidLedger "split_2" "0xAA" "0x2" samplePaidSplit
      (samplePaidSplit.participants.getD [])
      { address := "0xAa", share := 100, paid := true, txHash := some "0x1" }
      (by decide) (by decide) (by decide) (by decide) (by decide)⟩

end Paylink
